import Mathlib

/-!
Shallow embedding of the data-access layer (`src/lib/supabase.ts`) and the
profile modal component (`src/components/UI/UserProfileModal.tsx`) of the
Fellowship-finder application.

Modelling conventions:
* The Supabase client singleton (`supabase`) is `Option Backend`: `none` models
  the façade being `null` (connection parameters absent).
* `Backend` packages the remote state a call can observe (table contents, the
  authenticated session user) together with the backend's responses to writes
  (error flags, insert responses, public-URL construction).  Each data-access
  function returns its TypeScript result paired with the list of backend
  `Effect`s it issued, so "issues no backend call" is `trace = []`.
* ISO-8601 timestamp strings are kept as `String`; ISO strings compare
  chronologically under the lexicographic `String` order, so `created_at`
  descending is modelled by the `String` linear order of Mathlib.
* `Date.now()`, `Math.random().toString(36).substring(2)` and
  `new Date().toISOString()` are nondeterministic inputs; they are passed as
  explicit parameters (`nowMs : Nat`, `rand : String`, `now : String`).
* JavaScript object spreads such as `{ ...updates, updated_at: t }` are
  modelled by `objSet` on association lists (`Row`), and property lookup by
  `objGet`.
* TypeScript numbers on which no arithmetic is performed (`price`, `lat`,
  `lng`) are modelled as `Nat`/`Int`; optional record fields are `Option`.
-/

namespace SupabaseLib

/-- A backend error object; the code only ever reads `error.message`. -/
structure DbError where
  message : String
deriving DecidableEq, Repr

/-- Dynamic values appearing in query payloads. -/
inductive DbValue where
  | str (s : String)
  | num (n : Nat)
  | bool (b : Bool)
  | null
  | strList (l : List String)
deriving DecidableEq, Repr

/-- A JavaScript object used as a query payload: an association list of
properties.  Later `objSet` overrides earlier bindings, as object spread
does. -/
abbrev Row := List (String × DbValue)

/-- Property lookup on a payload object. -/
def objGet (r : Row) (k : String) : Option DbValue :=
  (r.find? (fun p => p.1 == k)).map (fun p => p.2)

/-- `objSet r k v` is the object `{ ...r, k: v }`: the binding for `k` is
`v`, all other bindings of `r` are kept. -/
def objSet (r : Row) (k : String) (v : DbValue) : Row :=
  r.filter (fun p => p.1 != k) ++ [(k, v)]

/-- The backend calls a data-access function can issue, as recorded in a
trace.  `select`'s `order` field is `(column, ascending)`. -/
inductive Effect where
  | authGetUser
  | select (table : String) (filters : List (String × DbValue))
      (order : Option (String × Bool)) (single : Bool)
  | insert (table : String) (row : Row)
  | update (table : String) (payload : Row) (eqCol : String) (eqVal : DbValue)
  | delete (table : String) (eqCol : String) (eqVal : DbValue)
  | storageUpload (bucket : String) (path : String) (cacheControl : String) (upsert : Bool)
  | storageGetPublicUrl (bucket : String) (path : String)
  | storageRemove (bucket : String) (paths : List String)
deriving DecidableEq, Repr

/-- Is the effect an `insert` against some table? -/
def Effect.isInsert : Effect → Bool
  | .insert _ _ => true
  | _ => false

/-- Is the effect a storage upload? -/
def Effect.isStorageUpload : Effect → Bool
  | .storageUpload _ _ _ _ => true
  | _ => false

/-- Does the effect touch the `profiles` table? -/
def Effect.touchesProfiles : Effect → Bool
  | .select t _ _ _ => t == "profiles"
  | .insert t _ => t == "profiles"
  | .update t _ _ _ => t == "profiles"
  | .delete t _ _ => t == "profiles"
  | _ => false

/-- The `user` object returned by `supabase.auth.getUser()`. -/
structure AuthUser where
  id : String
deriving DecidableEq, Repr

/-- Row of the `profiles` table (TS type `Profile`). -/
structure ProfileRow where
  id : String
  username : String
  role : String
  contact_info : Option String
  about_me : Option String
  profile_picture_url : Option String
  banner_url : Option String
  created_at : String
  updated_at : String
deriving DecidableEq, Repr

/-- Row of the `pins` table (TS type `Pin`; coordinates as integers, the
optional presentation fields are omitted — no claim mentions them). -/
structure PinRow where
  id : String
  username : String
  lat : Int
  lng : Int
  description : String
  images : List String
  created_at : String
deriving DecidableEq, Repr

/-- Row of the `marketplace_items` table (TS type `MarketplaceItem`). -/
structure MarketplaceRow where
  id : String
  seller_username : String
  title : String
  description : String
  price : Nat
  images : List String
  storage_paths : List String
  created_at : String
  updated_at : String
  is_active : Bool
deriving DecidableEq, Repr

/-- Row of the `blog_posts` table (TS type `BlogPost`). -/
structure BlogRow where
  id : String
  author_username : String
  title : String
  content : String
  excerpt : Option String
  created_at : String
  updated_at : String
  is_published : Bool
  view_count : Nat
deriving DecidableEq, Repr

/-- The record handed to `.insert` in `createMarketplaceItem`. -/
structure MarketInsert where
  seller_username : String
  title : String
  description : String
  price : Nat
  images : List String
  storage_paths : List String
  is_active : Bool
deriving DecidableEq, Repr

/-- The record handed to `.insert` in `createBlogPost`. -/
structure BlogInsert where
  author_username : String
  title : String
  content : String
  is_published : Bool
deriving DecidableEq, Repr

/-- `MarketInsert` as a payload object, for the effect trace. -/
def marketInsertToRow (m : MarketInsert) : Row :=
  [("seller_username", .str m.seller_username), ("title", .str m.title),
   ("description", .str m.description), ("price", .num m.price),
   ("images", .strList m.images), ("storage_paths", .strList m.storage_paths),
   ("is_active", .bool m.is_active)]

/-- `BlogInsert` as a payload object, for the effect trace. -/
def blogInsertToRow (b : BlogInsert) : Row :=
  [("author_username", .str b.author_username), ("title", .str b.title),
   ("content", .str b.content), ("is_published", .bool b.is_published)]

/-- The remote backend as observed through one call: table contents, the
session user, per-table read-error injections, responses to inserts and
writes, and the public-URL constructor of the storage service. -/
structure Backend where
  authUser : Option AuthUser
  profiles : List ProfileRow
  pins : List PinRow
  marketplace_items : List MarketplaceRow
  blog_posts : List BlogRow
  profilesError : Option DbError
  pinsError : Option DbError
  marketplaceError : Option DbError
  blogError : Option DbError
  marketInsert : MarketInsert → Except DbError MarketplaceRow
  blogInsert : BlogInsert → Except DbError BlogRow
  updateError : Option DbError
  deleteError : Option DbError
  uploadError : Option DbError
  removeError : Option DbError
  publicUrl : String → String → String

/-- Response of a list-returning query: `(data, error)` as destructured in
the TypeScript code. -/
def selectList (err : Option DbError) (rows : List α) : Option (List α) × Option DbError :=
  match err with
  | some e => (none, some e)
  | none => (some rows, none)

/-- Response of a `.single()` query: the row when the filter matches exactly
one row and no error is injected, an error otherwise. -/
def selectSingle (err : Option DbError) (rows : List α) : Option α × Option DbError :=
  match err with
  | some e => (none, some e)
  | none =>
    match rows with
    | [r] => (some r, none)
    | _ => (none, some ⟨"JSON object requested, multiple (or no) rows returned"⟩)

/-- Descending order on a `String`-valued key: the semantics of
`.order(col, ascending: false)`. -/
def descBy (key : α → String) (a b : α) : Prop :=
  key b ≤ key a

instance (key : α → String) : DecidableRel (descBy key) := fun a b =>
  inferInstanceAs (Decidable (key b ≤ key a))

instance (key : α → String) : IsTotal α (descBy key) :=
  ⟨fun a b => (le_total (key b) (key a)).imp id id⟩

instance (key : α → String) : IsTrans α (descBy key) :=
  ⟨fun _ _ _ h1 h2 => le_trans h2 h1⟩

/-- Sort a result set descending by a key, the semantics of
`.order(col, ascending: false)`. -/
def sortDescBy (key : α → String) (l : List α) : List α :=
  l.insertionSort (descBy key)

/-- `getCurrentUserProfile`: auth lookup, then a single-row fetch of the
session user's profile; `null` on a `null` façade, missing session, error, or
missing row. -/
def getCurrentUserProfile (supabase : Option Backend) : Option ProfileRow × List Effect :=
  match supabase with
  | none => (none, [])
  | some sb =>
    match sb.authUser with
    | none => (none, [.authGetUser])
    | some user =>
      let eff := Effect.select "profiles" [("id", .str user.id)] none true
      let (profile, error) :=
        selectSingle sb.profilesError (sb.profiles.filter (fun p => p.id == user.id))
      if error.isSome then (none, [.authGetUser, eff])
      else
        match profile with
        | none => (none, [.authGetUser, eff])
        | some p => (some p, [.authGetUser, eff])

/-- `getProfileByUsername`: list fetch filtered by username, first row or
`null`. -/
def getProfileByUsername (supabase : Option Backend) (username : String) :
    Option ProfileRow × List Effect :=
  match supabase with
  | none => (none, [])
  | some sb =>
    let eff := Effect.select "profiles" [("username", .str username)] none false
    let (data, error) :=
      selectList sb.profilesError (sb.profiles.filter (fun p => p.username == username))
    if error.isSome then (none, [eff])
    else
      match data with
      | some (p :: _) => (some p, [eff])
      | _ => (none, [eff])

/-- `updateUserProfile`: update by id with `{ ...profileData, updated_at: now }`;
`true` iff the backend reported no error. -/
def updateUserProfile (supabase : Option Backend) (now : String) (userId : String)
    (profileData : Row) : Bool × List Effect :=
  match supabase with
  | none => (false, [])
  | some sb =>
    let payload := objSet profileData "updated_at" (.str now)
    (sb.updateError.isNone, [.update "profiles" payload "id" (.str userId)])

/-- `getUserPins`: pins filtered by username, ordered by `created_at`
descending; the error is discarded and `null` data becomes `[]`. -/
def getUserPins (supabase : Option Backend) (username : String) :
    List PinRow × List Effect :=
  match supabase with
  | none => ([], [])
  | some sb =>
    let eff := Effect.select "pins" [("username", .str username)]
      (some ("created_at", false)) false
    let (pins, _error) :=
      selectList sb.pinsError
        (sortDescBy (fun p => p.created_at) (sb.pins.filter (fun p => p.username == username)))
    (pins.getD [], [eff])

/-- JavaScript `String.prototype.split(sep)` on the character list: `""`
splits to `[""]`, separators at the ends produce empty fields. -/
def splitOnChar (sep : Char) : List Char → List (List Char)
  | [] => [[]]
  | c :: cs =>
    if c = sep then [] :: splitOnChar sep cs
    else
      match splitOnChar sep cs with
      | [] => [[c]]
      | h :: t => (c :: h) :: t

/-- JavaScript `name.split(sep)` as Lean strings. -/
def jsSplit (s : String) (sep : Char) : List String :=
  (splitOnChar sep s.data).map String.mk

/-- `file.name.split('.').pop()` — the extension the upload key uses.
`split` never returns an empty array, so the default is never taken. -/
def uploadFileExt (name : String) : String :=
  ((jsSplit name '.').getLast?).getD ""

/-- JavaScript `s.startsWith(p)` on the character lists. -/
def jsStartsWith (s : String) (p : String) : Bool :=
  p.data.isPrefixOf s.data

/-- A selected file as the handler sees it: `name`, MIME `type`, `size` in
bytes. -/
structure JsFile where
  name : String
  type : String
  size : Nat
deriving DecidableEq, Repr

/-- The object key built by `uploadImage`. -/
def uploadFileName (file : JsFile) (userId : String) (nowMs : Nat) (rand : String) : String :=
  userId ++ "/" ++ toString nowMs ++ "-" ++ rand ++ "." ++ uploadFileExt file.name

/-- `uploadImage`: builds the object key and uploads with
`cacheControl: '3600', upsert: false`; `null` on a `null` façade or on a
backend error, the stored path on success. -/
def uploadImage (supabase : Option Backend) (file : JsFile) (userId : String)
    (bucketName : String := "pin-images") (nowMs : Nat := 0) (rand : String := "") :
    Option String × List Effect :=
  match supabase with
  | none => (none, [])
  | some sb =>
    let fileName := uploadFileName file userId nowMs rand
    let eff := Effect.storageUpload bucketName fileName "3600" false
    match sb.uploadError with
    | some _ => (none, [eff])
    | none => (some fileName, [eff])

/-- `getImageUrl`: public-URL construction; `''` on a `null` façade. -/
def getImageUrl (supabase : Option Backend) (path : String)
    (bucketName : String := "pin-images") : String × List Effect :=
  match supabase with
  | none => ("", [])
  | some sb => (sb.publicUrl bucketName path, [.storageGetPublicUrl bucketName path])

/-- `deleteImage`: storage `remove([path])`; `false` on a `null` façade or
error. -/
def deleteImage (supabase : Option Backend) (path : String)
    (bucketName : String := "pin-images") : Bool × List Effect :=
  match supabase with
  | none => (false, [])
  | some sb => (sb.removeError.isNone, [.storageRemove bucketName [path]])

/-- `getMarketplaceItems`: active items, `created_at` descending; `[]` on a
`null` façade or error. -/
def getMarketplaceItems (supabase : Option Backend) :
    List MarketplaceRow × List Effect :=
  match supabase with
  | none => ([], [])
  | some sb =>
    let eff := Effect.select "marketplace_items" [("is_active", .bool true)]
      (some ("created_at", false)) false
    let (data, error) :=
      selectList sb.marketplaceError
        (sortDescBy (fun i => i.created_at) (sb.marketplace_items.filter (fun i => i.is_active)))
    if error.isSome then ([], [eff])
    else (data.getD [], [eff])

/-- `createMarketplaceItem`: requires an authenticated profile, inserts one
row; throws `'User not authenticated'` without a profile, re-throws the
backend error message on insert failure. -/
def createMarketplaceItem (supabase : Option Backend) (title : String)
    (description : String) (price : Nat) (images : List String)
    (storagePaths : List String) :
    Except DbError (Option MarketplaceRow) × List Effect :=
  match supabase with
  | none => (.ok none, [])
  | some sb =>
    let (profile, profEff) := getCurrentUserProfile supabase
    match profile with
    | none => (.error ⟨"User not authenticated"⟩, profEff)
    | some profile =>
      let payload : MarketInsert :=
        { seller_username := profile.username, title := title.trim,
          description := description.trim, price := price, images := images,
          storage_paths := storagePaths, is_active := true }
      let eff := Effect.insert "marketplace_items" (marketInsertToRow payload)
      match sb.marketInsert payload with
      | .error e => (.error ⟨e.message⟩, profEff ++ [eff])
      | .ok row => (.ok (some row), profEff ++ [eff])

/-- `updateMarketplaceItem`: update by id with
`{ ...updates, updated_at: now }`. -/
def updateMarketplaceItem (supabase : Option Backend) (now : String)
    (itemId : String) (updates : Row) : Bool × List Effect :=
  match supabase with
  | none => (false, [])
  | some sb =>
    let payload := objSet updates "updated_at" (.str now)
    (sb.updateError.isNone, [.update "marketplace_items" payload "id" (.str itemId)])

/-- `deleteMarketplaceItem`: delete by id. -/
def deleteMarketplaceItem (supabase : Option Backend) (itemId : String) :
    Bool × List Effect :=
  match supabase with
  | none => (false, [])
  | some sb => (sb.deleteError.isNone, [.delete "marketplace_items" "id" (.str itemId)])

/-- `getUserMarketplaceItems`: items of one seller, `created_at`
descending. -/
def getUserMarketplaceItems (supabase : Option Backend) (username : String) :
    List MarketplaceRow × List Effect :=
  match supabase with
  | none => ([], [])
  | some sb =>
    let eff := Effect.select "marketplace_items" [("seller_username", .str username)]
      (some ("created_at", false)) false
    let (data, error) :=
      selectList sb.marketplaceError
        (sortDescBy (fun i => i.created_at)
          (sb.marketplace_items.filter (fun i => i.seller_username == username)))
    if error.isSome then ([], [eff])
    else (data.getD [], [eff])

/-- `getBlogPosts`: ordered `created_at` descending; the `is_published`
equality filter is applied only when `publishedOnly`. -/
def getBlogPosts (supabase : Option Backend) (publishedOnly : Bool := true) :
    List BlogRow × List Effect :=
  match supabase with
  | none => ([], [])
  | some sb =>
    let filters : List (String × DbValue) :=
      if publishedOnly then [("is_published", .bool true)] else []
    let rows :=
      if publishedOnly then sb.blog_posts.filter (fun p => p.is_published)
      else sb.blog_posts
    let eff := Effect.select "blog_posts" filters (some ("created_at", false)) false
    let (data, error) :=
      selectList sb.blogError (sortDescBy (fun p => p.created_at) rows)
    if error.isSome then ([], [eff])
    else (data.getD [], [eff])

/-- `getUserBlogPosts`: posts of one author, `created_at` descending. -/
def getUserBlogPosts (supabase : Option Backend) (username : String) :
    List BlogRow × List Effect :=
  match supabase with
  | none => ([], [])
  | some sb =>
    let eff := Effect.select "blog_posts" [("author_username", .str username)]
      (some ("created_at", false)) false
    let (data, error) :=
      selectList sb.blogError
        (sortDescBy (fun p => p.created_at)
          (sb.blog_posts.filter (fun p => p.author_username == username)))
    if error.isSome then ([], [eff])
    else (data.getD [], [eff])

/-- `createBlogPost`: requires an authenticated profile, inserts one row;
throws `'User not authenticated'` without a profile, re-throws the backend
error message on insert failure. -/
def createBlogPost (supabase : Option Backend) (title : String) (content : String)
    (isPublished : Bool := false) :
    Except DbError (Option BlogRow) × List Effect :=
  match supabase with
  | none => (.ok none, [])
  | some sb =>
    let (profile, profEff) := getCurrentUserProfile supabase
    match profile with
    | none => (.error ⟨"User not authenticated"⟩, profEff)
    | some profile =>
      let payload : BlogInsert :=
        { author_username := profile.username, title := title.trim,
          content := content.trim, is_published := isPublished }
      let eff := Effect.insert "blog_posts" (blogInsertToRow payload)
      match sb.blogInsert payload with
      | .error e => (.error ⟨e.message⟩, profEff ++ [eff])
      | .ok row => (.ok (some row), profEff ++ [eff])

/-- `updateBlogPost`: update by id with `{ ...updates, updated_at: now }`. -/
def updateBlogPost (supabase : Option Backend) (now : String) (postId : String)
    (updates : Row) : Bool × List Effect :=
  match supabase with
  | none => (false, [])
  | some sb =>
    let payload := objSet updates "updated_at" (.str now)
    (sb.updateError.isNone, [.update "blog_posts" payload "id" (.str postId)])

/-- `deleteBlogPost`: delete by id. -/
def deleteBlogPost (supabase : Option Backend) (postId : String) :
    Bool × List Effect :=
  match supabase with
  | none => (false, [])
  | some sb => (sb.deleteError.isNone, [.delete "blog_posts" "id" (.str postId)])

/-- `getBlogPost`: single-row fetch by id; when a row comes back, one
separate update writes `view_count: data.view_count + 1`; the fetched row
(pre-increment) is returned. -/
def getBlogPost (supabase : Option Backend) (postId : String) :
    Option BlogRow × List Effect :=
  match supabase with
  | none => (none, [])
  | some sb =>
    let fetchEff := Effect.select "blog_posts" [("id", .str postId)] none true
    let (data, error) :=
      selectSingle sb.blogError (sb.blog_posts.filter (fun p => p.id == postId))
    if error.isSome then (none, [fetchEff])
    else
      match data with
      | none => (none, [fetchEff])
      | some post =>
        let upd := Effect.update "blog_posts"
          [("view_count", .num (post.view_count + 1))] "id" (.str postId)
        (some post, [fetchEff, upd])

end SupabaseLib

namespace UserProfileModal

open SupabaseLib

/-- `username.match(/^\d{7}$/)` as a Boolean: exactly seven digit
characters. -/
def isGuestUser (username : String) : Bool :=
  username.length == 7 && username.data.all Char.isDigit

/-- The component's `userProfile` state is untyped (`any`); a stored profile
row becomes the corresponding object. -/
def profileRowToObj (p : ProfileRow) : Row :=
  [("id", .str p.id), ("username", .str p.username), ("role", .str p.role),
   ("contact_info", (p.contact_info.map DbValue.str).getD .null),
   ("about_me", (p.about_me.map DbValue.str).getD .null),
   ("profile_picture_url", (p.profile_picture_url.map DbValue.str).getD .null),
   ("banner_url", (p.banner_url.map DbValue.str).getD .null),
   ("created_at", .str p.created_at), ("updated_at", .str p.updated_at)]

/-- The mock profile synthesized for guest usernames in `fetchProfileData`. -/
def mockGuestProfile (username : String) (now : String) : Row :=
  [("id", .null), ("username", .str username), ("role", .str "guest"),
   ("created_at", .str now), ("updated_at", .str now), ("contact_info", .null),
   ("about_me", .null), ("profile_picture_url", .null), ("banner_url", .null)]

/-- `fetchProfileData`: fetch pins, then — unless the username matches the
guest pattern — fetch the profile (own profile via the session, another
user's by username); for guest usernames a mock profile is synthesized with
no further call.  Returns the pins state, the profile state, and the trace. -/
def fetchProfileData (supabase : Option Backend) (username : String)
    (currentUser : String) (now : String) :
    List PinRow × Option Row × List Effect :=
  let isOwnProfile := username == currentUser
  let (pins, pinEff) := getUserPins supabase username
  if !isGuestUser username then
    let (profile, profEff) :=
      if isOwnProfile then getCurrentUserProfile supabase
      else getProfileByUsername supabase username
    (pins, profile.map profileRowToObj, pinEff ++ profEff)
  else
    (pins, some (mockGuestProfile username now), pinEff)

/-- `checkAuthStatus`: `auth.getUser()`, and when a session user exists, the
session profile via `getCurrentUserProfile`.  Returns the `isAuthenticated`
state, the profile state update (outer `none` when it is not written), and
the trace. -/
def checkAuthStatus (supabase : Option Backend) :
    Bool × Option (Option Row) × List Effect :=
  match supabase with
  | none => (false, none, [])
  | some sb =>
    match sb.authUser with
    | none => (false, none, [.authGetUser])
    | some _ =>
      let (profile, profEff) := getCurrentUserProfile supabase
      (true, some (profile.map profileRowToObj), .authGetUser :: profEff)

/-- The modal-open effect (`useEffect` on `isOpen && username`):
`fetchProfileData()` and `checkAuthStatus()` are both started. -/
def openProfileModal (supabase : Option Backend) (username : String)
    (currentUser : String) (now : String) : List Effect :=
  (fetchProfileData supabase username currentUser now).2.2
    ++ (checkAuthStatus supabase).2.2

/-- `handleUsernameSubmit`: `onUsernameChange(newUsername)` is invoked
exactly when the guard
`newUsername.trim() && newUsername.length === 7 && /^\d+$/.test(newUsername)`
is truthy; the result is the argument passed, or `none` when nothing is
invoked. -/
def handleUsernameSubmit (newUsername : String) : Option String :=
  if newUsername.trim ≠ "" ∧ newUsername.length = 7 ∧
      (newUsername ≠ "" ∧ newUsername.data.all Char.isDigit) then
    some newUsername
  else none

/-- Outcome of `handleProfilePictureChange`: silently ignored by the entry
guard, rejected by client-side validation with an alert, failed in the
`try` block with the failure alert, or completed with the success alert. -/
inductive UploadOutcome where
  | ignored
  | rejected (msg : String)
  | failed
  | succeeded
deriving DecidableEq, Repr

/-- `handleProfilePictureChange`: entry guard, MIME-type and 5 MB size
validation before any backend call, then upload → public URL → profile
update → re-fetch. -/
def handleProfilePictureChange (supabase : Option Backend) (file : Option JsFile)
    (isAuthenticated : Bool) (userProfile : Option ProfileRow)
    (username : String) (currentUser : String) (now : String) (nowMs : Nat)
    (rand : String) : UploadOutcome × List Effect :=
  match file with
  | none => (.ignored, [])
  | some f =>
    if !isAuthenticated then (.ignored, [])
    else
      match userProfile with
      | none => (.ignored, [])
      | some prof =>
        if isGuestUser username then (.ignored, [])
        else if !(SupabaseLib.jsStartsWith f.type "image/") then
          (.rejected "Please select an image file", [])
        else if f.size > 5 * 1024 * 1024 then
          (.rejected "Image size must be less than 5MB", [])
        else
          let (pathOpt, upEff) :=
            uploadImage supabase f prof.id "profile-pictures" nowMs rand
          match pathOpt with
          | none => (.failed, upEff)
          | some path =>
            let (publicUrl, urlEff) := getImageUrl supabase path "profile-pictures"
            let (updateSuccess, updEff) :=
              updateUserProfile supabase now prof.id
                [("profile_picture_url", .str publicUrl)]
            if !updateSuccess then (.failed, upEff ++ urlEff ++ updEff)
            else
              let refetch := fetchProfileData supabase username currentUser now
              (.succeeded, upEff ++ urlEff ++ updEff ++ refetch.2.2)

end UserProfileModal

namespace ViewCountRace

/-!
The read-then-increment of `getBlogPost`, as a two-client interleaving
model: each client first reads the stored `view_count`, then writes back the
value it read plus one (the payload `{ view_count: data.view_count + 1 }`
carries the absolute value computed from the client's own earlier read).
-/

/-- One client of the `getBlogPost` view-count protocol: the value its
`.single()` fetch returned, if the fetch has happened, and whether its
update has been issued. -/
structure Client where
  readVal : Option Nat
  done : Bool
deriving DecidableEq, Repr

/-- Both clients plus the stored `view_count`. -/
structure RaceState where
  store : Nat
  c1 : Client
  c2 : Client
deriving DecidableEq, Repr

/-- One step of a client: first the read, then the write of
`readVal + 1`; a finished client leaves the store unchanged. -/
def stepClient (store : Nat) (c : Client) : Nat × Client :=
  match c.readVal, c.done with
  | none, _ => (store, { readVal := some store, done := false })
  | some v, false => (v + 1, { readVal := some v, done := true })
  | some _, true => (store, c)

/-- Scheduler step: `true` steps client 1, `false` steps client 2. -/
def stepRace (s : RaceState) (first : Bool) : RaceState :=
  if first then
    let (store, c1) := stepClient s.store s.c1
    { s with store := store, c1 := c1 }
  else
    let (store, c2) := stepClient s.store s.c2
    { s with store := store, c2 := c2 }

/-- Run a schedule from a state. -/
def runRace (s : RaceState) (sched : List Bool) : RaceState :=
  sched.foldl stepRace s

/-- The initial state for two concurrent `getBlogPost` calls over a stored
count `n`. -/
def initRace (n : Nat) : RaceState :=
  { store := n, c1 := { readVal := none, done := false },
    c2 := { readVal := none, done := false } }

end ViewCountRace

namespace Claims

/-! Concrete fixtures for counterexamples and witnesses. -/

/-- A backend with empty tables, no session, and no injected errors. -/
def emptyBackend : SupabaseLib.Backend where
  authUser := none
  profiles := []
  pins := []
  marketplace_items := []
  blog_posts := []
  profilesError := none
  pinsError := none
  marketplaceError := none
  blogError := none
  marketInsert := fun _ => .error ⟨"insert rejected"⟩
  blogInsert := fun _ => .error ⟨"insert rejected"⟩
  updateError := none
  deleteError := none
  uploadError := none
  removeError := none
  publicUrl := fun bucket path => "https://cdn.example/" ++ bucket ++ "/" ++ path

/-- A stored blog post with five views. -/
def postP1 : SupabaseLib.BlogRow where
  id := "p1"
  author_username := "alice"
  title := "hello"
  content := "world"
  excerpt := none
  created_at := "2024-01-01T00:00:00Z"
  updated_at := "2024-01-01T00:00:00Z"
  is_published := true
  view_count := 5

/-- A stored profile for auth user `u1`. -/
def profU1 : SupabaseLib.ProfileRow where
  id := "u1"
  username := "alice"
  role := "user"
  contact_info := none
  about_me := none
  profile_picture_url := none
  banner_url := none
  created_at := "2024-01-01T00:00:00Z"
  updated_at := "2024-01-01T00:00:00Z"

/-- Backend holding exactly `postP1`. -/
def backendWithPost : SupabaseLib.Backend :=
  { emptyBackend with blog_posts := [postP1] }

/-- Backend whose blog reads fail. -/
def backendBlogDown : SupabaseLib.Backend :=
  { emptyBackend with blogError := some ⟨"database unavailable"⟩ }

/-- Claim C2's property of one backend write, as the claim words it: the
written row carries the freshly derived (write-time) `updated_at`. -/
def writeCarriesFreshUpdatedAt (now : String) : SupabaseLib.Effect → Bool
  | .update _ payload _ _ => SupabaseLib.objGet payload "updated_at" == some (.str now)
  | _ => true

/-- Claim C4's shape of a list-endpoint trace, as the claim words it:
exactly one query, filtering by equality on a single column and sorting by
creation time descending. -/
def singleEqFilterDescQuery : List SupabaseLib.Effect → Bool
  | [.select _ [_] (some ("created_at", false)) _] => true
  | _ => false

/-- Backend with a signed-in session user `u1` whose profile row is stored;
inserts are rejected (the `emptyBackend` responses). -/
def backendAuthed : SupabaseLib.Backend :=
  { emptyBackend with authUser := some ⟨"u1"⟩, profiles := [profU1] }

/-- Claim C8's reading of the extension, on character lists: the characters
after the last dot. -/
def afterLastDotChars (l : List Char) : List Char :=
  (l.reverse.takeWhile (fun c => c != '.')).reverse

/-- Claim C8's reading of the extension: the substring of the file name
after its last dot — which exists only when the name contains a dot. -/
def extAfterLastDot (name : String) : Option String :=
  if name.data.any (fun c => c == '.') then some (String.mk (afterLastDotChars name.data))
  else none

/-- The object key exactly as claim C8 words it: owner id, separator, time,
hyphen, random suffix, dot, and the substring after the last dot of the
original name. -/
def claimUploadKey (file : SupabaseLib.JsFile) (userId : String) (nowMs : Nat)
    (rand : String) : Option String :=
  (extAfterLastDot file.name).map
    (fun ext => userId ++ "/" ++ toString nowMs ++ "-" ++ rand ++ "." ++ ext)

end Claims

namespace SupabaseLib

/-- Property lookup on a cons cell. -/
theorem objGet_cons (p : String × DbValue) (r : Row) (k : String) :
    objGet (p :: r) k = if p.1 == k then some p.2 else objGet r k := by
  by_cases h : p.1 == k <;> simp [objGet, List.find?, h]

/-- `{ ...r, k: v }` maps `k` to `v`, whatever `r` bound it to. -/
theorem objGet_objSet (r : Row) (k : String) (v : DbValue) :
    objGet (objSet r k v) k = some v := by
  induction r with
  | nil => simp [objGet, objSet]
  | cons hd tl ih =>
    by_cases h : hd.1 = k
    · have hb : (hd.1 != k) = false := by simp [bne, h]
      simpa [objSet, List.filter_cons, hb] using ih
    · have hb : (hd.1 != k) = true := by simp [bne, h]
      have hk : (hd.1 == k) = false := by simp [h]
      simpa [objSet, List.filter_cons, hb, objGet_cons, hk] using ih

/-- The trace of `getCurrentUserProfile` never contains an insert: it is the
auth lookup and at most one profile select. -/
theorem getCurrentUserProfile_no_insert (sb : Option Backend) :
    ((getCurrentUserProfile sb).2).all (fun e => !e.isInsert) = true := by
  cases sb with
  | none => rfl
  | some b =>
    cases hu : b.authUser with
    | none => simp [getCurrentUserProfile, hu, Effect.isInsert]
    | some u =>
      cases hp : selectSingle b.profilesError (b.profiles.filter (fun p => p.id == u.id)) with
      | mk prof err =>
        simp only [getCurrentUserProfile, hu, hp]
        split
        · simp [Effect.isInsert]
        · cases prof <;> simp [Effect.isInsert]

/-- `takeWhile` across an append: the second part contributes only when the
whole first part satisfies the predicate. -/
theorem takeWhile_append_all (p : α → Bool) (xs ys : List α) :
    (xs ++ ys).takeWhile p =
      if xs.all p then xs ++ ys.takeWhile p else xs.takeWhile p := by
  induction xs with
  | nil => simp
  | cons a l ih =>
    by_cases h : p a = true
    · simp only [List.cons_append, List.takeWhile_cons, h, if_true, ih,
        List.all_cons, Bool.true_and]
      by_cases h2 : l.all p = true <;> simp [h2, List.takeWhile_cons, h]
    · have h' : p a = false := by simpa using h
      simp [List.takeWhile_cons, h', List.all_cons]

/-- Appending the separator character does not change the
take-until-separator segment. -/
theorem takeWhile_ne_append_sep (sep : Char) (xs : List Char) :
    (xs ++ [sep]).takeWhile (fun c => c != sep) =
      xs.takeWhile (fun c => c != sep) := by
  rw [takeWhile_append_all]
  by_cases hall : xs.all (fun c => c != sep) = true
  · have h2 : xs.takeWhile (fun c => c != sep) = xs :=
      List.takeWhile_eq_self_iff.mpr (fun x hx => List.all_eq_true.mp hall x hx)
    simp [hall, h2]
  · simp [hall]

/-- `splitOnChar` never returns the empty list. -/
theorem splitOnChar_ne_nil (sep : Char) (l : List Char) : splitOnChar sep l ≠ [] := by
  cases l with
  | nil => simp [splitOnChar]
  | cons c cs =>
    simp only [splitOnChar]
    split
    · simp
    · split <;> simp

/-- The last field of `splitOnChar` is the reversed take-until-separator of
the reversed input — the segment after the last separator, the whole input
when no separator occurs — and the split is a single field exactly when no
separator occurs. -/
theorem splitOnChar_getLast (sep : Char) (l : List Char) :
    (splitOnChar sep l).getLast? =
      some ((l.reverse.takeWhile (fun c => c != sep)).reverse)
    ∧ ((splitOnChar sep l).length = 1 ↔ l.all (fun c => c != sep) = true) := by
  induction l with
  | nil =>
    constructor
    · rfl
    · simp [splitOnChar]
  | cons c cs ih =>
    obtain ⟨ih1, ih2⟩ := ih
    by_cases hc : c = sep
    · subst hc
      have hne := splitOnChar_ne_nil c cs
      constructor
      · rw [splitOnChar, if_pos rfl]
        cases hr : splitOnChar c cs with
        | nil => exact absurd hr hne
        | cons h t =>
          rw [List.getLast?_cons_cons]
          rw [hr] at ih1
          rw [ih1, List.reverse_cons, takeWhile_ne_append_sep]
      · rw [splitOnChar, if_pos rfl]
        cases hr : splitOnChar c cs with
        | nil => exact absurd hr hne
        | cons h t =>
          constructor
          · intro hlen
            simp at hlen
          · intro hall
            simp [List.all_cons] at hall
    · have hcb : (c != sep) = true := by simp [bne, hc]
      have hne := splitOnChar_ne_nil sep cs
      cases hr : splitOnChar sep cs with
      | nil => exact absurd hr hne
      | cons h t =>
        rw [hr] at ih1 ih2
        have hsplit : splitOnChar sep (c :: cs) = (c :: h) :: t := by
          rw [splitOnChar, if_neg hc, hr]
        cases t with
        | nil =>
          have hall : cs.all (fun x => x != sep) = true := ih2.mp rfl
          have hallr : cs.reverse.all (fun x => x != sep) = true := by
            simpa using hall
          have htw : cs.reverse.takeWhile (fun x => x != sep) = cs.reverse :=
            List.takeWhile_eq_self_iff.mpr (fun x hx => List.all_eq_true.mp hallr x hx)
          have hh : h = cs := by
            have := ih1
            simp only [List.getLast?_singleton, Option.some.injEq] at this
            rw [this, htw, List.reverse_reverse]
          constructor
          · rw [hsplit]
            simp only [List.getLast?_singleton, Option.some.injEq]
            rw [List.reverse_cons, takeWhile_append_all, if_pos hallr]
            simp [List.takeWhile_cons, hcb, hh]
          · rw [hsplit]
            simp [List.all_cons, hcb, hall]
        | cons t1 ts =>
          have hnall : ¬ cs.all (fun x => x != sep) = true := by
            intro hall
            have := ih2.mpr hall
            simp at this
          constructor
          · rw [hsplit, List.getLast?_cons_cons]
            have hlhs : (t1 :: ts).getLast? = ((h : List Char) :: t1 :: ts).getLast? :=
              (List.getLast?_cons_cons).symm
            rw [hlhs, ih1]
            have hnallr : ¬ cs.reverse.all (fun x => x != sep) = true := by
              simpa using hnall
            rw [List.reverse_cons, takeWhile_append_all, if_neg hnallr]
          · rw [hsplit]
            constructor
            · intro hlen
              simp at hlen
            · intro hall
              simp only [List.all_cons, hcb, Bool.true_and] at hall
              exact absurd hall hnall

end SupabaseLib

namespace Claims

open SupabaseLib UserProfileModal ViewCountRace

/-- C1: with a `null` façade every data-access and storage function returns
its documented safe fallback — the empty list for the list fetches, `null`
(no exception) for the single-record fetches, creates and the upload,
`false` for the updates and deletes, the empty string for `getImageUrl` —
and issues no backend call (empty effect trace). -/
theorem null_facade_safe_fallbacks :
    ∀ (username postId itemId userId path bucket title description content now : String)
      (price nowMs : Nat) (images storagePaths : List String) (profileData updates : Row)
      (publishedOnly isPublished : Bool) (file : JsFile) (rand : String),
    getUserPins none username = ([], [])
  ∧ getMarketplaceItems none = ([], [])
  ∧ getUserMarketplaceItems none username = ([], [])
  ∧ getBlogPosts none publishedOnly = ([], [])
  ∧ getUserBlogPosts none username = ([], [])
  ∧ getCurrentUserProfile none = (none, [])
  ∧ getProfileByUsername none username = (none, [])
  ∧ getBlogPost none postId = (none, [])
  ∧ createMarketplaceItem none title description price images storagePaths = (.ok none, [])
  ∧ createBlogPost none title content isPublished = (.ok none, [])
  ∧ uploadImage none file userId bucket nowMs rand = (none, [])
  ∧ updateUserProfile none now userId profileData = (false, [])
  ∧ updateMarketplaceItem none now itemId updates = (false, [])
  ∧ deleteMarketplaceItem none itemId = (false, [])
  ∧ updateBlogPost none now postId updates = (false, [])
  ∧ deleteBlogPost none postId = (false, [])
  ∧ deleteImage none path bucket = (false, [])
  ∧ getImageUrl none path bucket = ("", []) := by
  intros
  exact ⟨rfl, rfl, rfl, rfl, rfl, rfl, rfl, rfl, rfl, rfl, rfl, rfl, rfl, rfl,
    rfl, rfl, rfl, rfl⟩

/-- C9: the view-count increment of `getBlogPost` races.  In the schedule
where both clients fetch before either writes, both read `n` and both write
`n + 1`, so two completed calls leave the stored count at `n + 1`; the
serial schedule leaves it at `n + 2`. -/
theorem view_count_increment_race (n : Nat) :
    (runRace (initRace n) [true, false, true, false]).store = n + 1
  ∧ (runRace (initRace n) [true, false, true, false]).c1.done = true
  ∧ (runRace (initRace n) [true, false, true, false]).c2.done = true
  ∧ (runRace (initRace n) [true, true, false, false]).store = n + 2 :=
  ⟨rfl, rfl, rfl, rfl⟩

/-- C10: the username-change submit handler passes a string to
`onUsernameChange` exactly when its trim is non-empty, its length is exactly
7 and it consists only of digits; the string passed is the input itself, and
every string it ever passes matches the 7-digit guest pattern. -/
theorem username_submit_guard (s : String) :
    handleUsernameSubmit s =
      (if s.trim ≠ "" ∧ s.length = 7 ∧ ∀ c ∈ s.data, c.isDigit = true then some s
       else none)
  ∧ (handleUsernameSubmit s).all isGuestUser = true := by
  have hiff : (s.trim ≠ "" ∧ s.length = 7 ∧ (s ≠ "" ∧ s.data.all Char.isDigit)) ↔
      (s.trim ≠ "" ∧ s.length = 7 ∧ ∀ c ∈ s.data, c.isDigit = true) := by
    constructor
    · rintro ⟨h1, h2, _, h4⟩
      exact ⟨h1, h2, fun c hc => List.all_eq_true.mp h4 c hc⟩
    · rintro ⟨h1, h2, h3⟩
      refine ⟨h1, h2, ?_, List.all_eq_true.mpr h3⟩
      intro he
      rw [he] at h2
      exact absurd h2 (by decide)
  constructor
  · rw [handleUsernameSubmit, if_congr hiff rfl rfl]
  · rw [handleUsernameSubmit]
    split
    · rename_i h
      obtain ⟨_, h2, _, h4⟩ := h
      simp [Option.all, isGuestUser, h2, h4]
    · rfl


/-- C2, counterexample: the `view_count` update issued inside `getBlogPost`
carries no `updated_at` at all — its payload is exactly
`{ view_count: 6 }` — so not every write issued by this codebase carries a
freshly derived `updated_at`. -/
theorem updated_at_counterexample :
    ((SupabaseLib.getBlogPost (some backendWithPost) "p1").2).all
      (writeCarriesFreshUpdatedAt "2024-06-01T00:00:00Z") = false
  ∧ (SupabaseLib.getBlogPost (some backendWithPost) "p1").2 =
      [.select "blog_posts" [("id", .str "p1")] none true,
       .update "blog_posts" [("view_count", .num 6)] "id" (.str "p1")]
  ∧ SupabaseLib.objGet [("view_count", SupabaseLib.DbValue.num 6)] "updated_at" = none := by
  refine ⟨?_, ?_, ?_⟩ <;> decide

/-- C2, amended: the three update operations (`updateUserProfile`,
`updateMarketplaceItem`, `updateBlogPost`) write a row whose `updated_at` is
the write-time value, a caller-supplied `updated_at` never reaching the
database; the `view_count` update issued inside `getBlogPost` instead sets
only `view_count` and carries no `updated_at` at all (so no caller value
reaches the database there either, but nothing fresh is written). -/
theorem updated_at_rederived_amended (sb : SupabaseLib.Backend) (now : String)
    (userId itemId postId pid : String) (profileData updates bupdates : SupabaseLib.Row) :
    (SupabaseLib.updateUserProfile (some sb) now userId profileData).2 =
      [.update "profiles" (SupabaseLib.objSet profileData "updated_at" (.str now)) "id" (.str userId)]
  ∧ SupabaseLib.objGet (SupabaseLib.objSet profileData "updated_at" (.str now)) "updated_at" =
      some (.str now)
  ∧ (SupabaseLib.updateMarketplaceItem (some sb) now itemId updates).2 =
      [.update "marketplace_items" (SupabaseLib.objSet updates "updated_at" (.str now)) "id" (.str itemId)]
  ∧ SupabaseLib.objGet (SupabaseLib.objSet updates "updated_at" (.str now)) "updated_at" =
      some (.str now)
  ∧ (SupabaseLib.updateBlogPost (some sb) now postId bupdates).2 =
      [.update "blog_posts" (SupabaseLib.objSet bupdates "updated_at" (.str now)) "id" (.str postId)]
  ∧ SupabaseLib.objGet (SupabaseLib.objSet bupdates "updated_at" (.str now)) "updated_at" =
      some (.str now)
  ∧ ((SupabaseLib.getBlogPost (some sb) pid).2).all
      (fun e => match e with
        | .update _ payload _ _ => (SupabaseLib.objGet payload "updated_at").isNone
        | _ => true) = true := by
  refine ⟨rfl, SupabaseLib.objGet_objSet _ _ _, rfl, SupabaseLib.objGet_objSet _ _ _,
    rfl, SupabaseLib.objGet_objSet _ _ _, ?_⟩
  cases h : sb.blogError with
  | some e => simp [SupabaseLib.getBlogPost, SupabaseLib.selectSingle, h]
  | none =>
    cases hr : sb.blog_posts.filter (fun p => p.id == pid) with
    | nil => simp [SupabaseLib.getBlogPost, SupabaseLib.selectSingle, h, hr]
    | cons r t =>
      cases t with
      | nil =>
        simp [SupabaseLib.getBlogPost, SupabaseLib.selectSingle, h, hr, SupabaseLib.objGet]
      | cons r2 t2 =>
        simp [SupabaseLib.getBlogPost, SupabaseLib.selectSingle, h, hr]


/-- C4, counterexample: `getBlogPosts` with `publishedOnly = false` issues
its one ordered query with no equality filter at all, so not every list
endpoint's query filters by equality on a single column. -/
theorem list_endpoints_counterexample :
    singleEqFilterDescQuery (SupabaseLib.getBlogPosts (some Claims.emptyBackend) false).2 = false
  ∧ (SupabaseLib.getBlogPosts (some Claims.emptyBackend) false).2 =
      [.select "blog_posts" [] (some ("created_at", false)) false] := by
  exact ⟨by decide, by decide⟩

/-- C4, amended: `getUserPins u` returns only pins whose username is `u`,
ordered by `created_at` descending; every list endpoint issues exactly one
query sorted by creation time descending, and all of them filter by equality
on a single column except `getBlogPosts` with `publishedOnly = false`
(the non-default argument), whose single query carries no filter. -/
theorem list_endpoints_amended (sb : SupabaseLib.Backend) (u : String) :
    ((SupabaseLib.getUserPins (some sb) u).1).all (fun p => p.username == u) = true
  ∧ List.Sorted (SupabaseLib.descBy (fun p : SupabaseLib.PinRow => p.created_at))
      (SupabaseLib.getUserPins (some sb) u).1
  ∧ (SupabaseLib.getUserPins (some sb) u).2 =
      [.select "pins" [("username", .str u)] (some ("created_at", false)) false]
  ∧ (SupabaseLib.getMarketplaceItems (some sb)).2 =
      [.select "marketplace_items" [("is_active", .bool true)] (some ("created_at", false)) false]
  ∧ (SupabaseLib.getUserMarketplaceItems (some sb) u).2 =
      [.select "marketplace_items" [("seller_username", .str u)] (some ("created_at", false)) false]
  ∧ (SupabaseLib.getBlogPosts (some sb) true).2 =
      [.select "blog_posts" [("is_published", .bool true)] (some ("created_at", false)) false]
  ∧ (SupabaseLib.getBlogPosts (some sb) false).2 =
      [.select "blog_posts" [] (some ("created_at", false)) false]
  ∧ (SupabaseLib.getUserBlogPosts (some sb) u).2 =
      [.select "blog_posts" [("author_username", .str u)] (some ("created_at", false)) false] := by
  refine ⟨?_, ?_, ?_, ?_, ?_, ?_, ?_, ?_⟩
  · cases h : sb.pinsError with
    | some e => simp [SupabaseLib.getUserPins, SupabaseLib.selectList, h]
    | none =>
      simp only [SupabaseLib.getUserPins, SupabaseLib.selectList, h, Option.getD_some]
      rw [List.all_eq_true]
      intro p hp
      rw [SupabaseLib.sortDescBy, List.mem_insertionSort] at hp
      simpa using List.of_mem_filter hp
  · cases h : sb.pinsError with
    | some e =>
      simp [SupabaseLib.getUserPins, SupabaseLib.selectList, h]
    | none =>
      simp only [SupabaseLib.getUserPins, SupabaseLib.selectList, h, Option.getD_some]
      exact List.sorted_insertionSort _ _
  · cases h : sb.pinsError <;> simp [SupabaseLib.getUserPins, SupabaseLib.selectList, h]
  · cases h : sb.marketplaceError <;>
      simp [SupabaseLib.getMarketplaceItems, SupabaseLib.selectList, h]
  · cases h : sb.marketplaceError <;>
      simp [SupabaseLib.getUserMarketplaceItems, SupabaseLib.selectList, h]
  · cases h : sb.blogError <;> simp [SupabaseLib.getBlogPosts, SupabaseLib.selectList, h]
  · cases h : sb.blogError <;> simp [SupabaseLib.getBlogPosts, SupabaseLib.selectList, h]
  · cases h : sb.blogError <;> simp [SupabaseLib.getUserBlogPosts, SupabaseLib.selectList, h]

/-- C5: with the façade present, `getBlogPost` first issues the single-row
fetch; exactly when the fetch succeeds with a row it issues one separate
update setting `view_count` to the fetched value plus one, and returns the
fetched (pre-increment) record; when the fetch fails it issues no update and
returns `null`. -/
theorem getBlogPost_read_then_increment (sb1 sb2 : SupabaseLib.Backend)
    (postId : String) (r : SupabaseLib.BlogRow)
    (h1 : SupabaseLib.selectSingle sb1.blogError
      (sb1.blog_posts.filter (fun p => p.id == postId)) = (some r, none))
    (h2 : (SupabaseLib.selectSingle sb2.blogError
      (sb2.blog_posts.filter (fun p => p.id == postId))).2.isSome = true) :
    SupabaseLib.getBlogPost (some sb1) postId =
      (some r, [.select "blog_posts" [("id", .str postId)] none true,
        .update "blog_posts" [("view_count", .num (r.view_count + 1))] "id" (.str postId)])
  ∧ SupabaseLib.getBlogPost (some sb2) postId =
      (none, [.select "blog_posts" [("id", .str postId)] none true]) := by
  constructor
  · simp [SupabaseLib.getBlogPost, h1]
  · cases hp : SupabaseLib.selectSingle sb2.blogError
        (sb2.blog_posts.filter (fun p => p.id == postId)) with
    | mk d err =>
      rw [hp] at h2
      simp only at h2
      simp [SupabaseLib.getBlogPost, hp, h2]

/-- C5, witness: a backend holding exactly `postP1` takes the successful
branch (one update of `view_count` to 6, the returned record still carrying
5), a backend whose blog reads fail takes the failure branch. -/
theorem getBlogPost_read_then_increment_witness :
    SupabaseLib.getBlogPost (some Claims.backendWithPost) "p1" =
      (some Claims.postP1, [.select "blog_posts" [("id", .str "p1")] none true,
        .update "blog_posts" [("view_count", .num (Claims.postP1.view_count + 1))] "id" (.str "p1")])
  ∧ SupabaseLib.getBlogPost (some Claims.backendBlogDown) "p1" =
      (none, [.select "blog_posts" [("id", .str "p1")] none true]) :=
  getBlogPost_read_then_increment Claims.backendWithPost Claims.backendBlogDown "p1"
    Claims.postP1 (by decide) (by decide)


/-- C3: with the façade present but no authenticated profile,
`createMarketplaceItem` (and likewise `createBlogPost`) throws
`'User not authenticated'` and issues no insert; and when the backend
reports an insert error, the creation functions re-throw its message instead
of mapping it to a fallback value. -/
theorem create_requires_auth_and_rethrows (sb1 sb2 : SupabaseLib.Backend)
    (p : SupabaseLib.ProfileRow) (title description content : String) (price : Nat)
    (images storagePaths : List String) (isPublished : Bool) (e1 e2 : SupabaseLib.DbError)
    (h1 : (SupabaseLib.getCurrentUserProfile (some sb1)).1 = none)
    (h2 : (SupabaseLib.getCurrentUserProfile (some sb2)).1 = some p)
    (h3 : sb2.marketInsert { seller_username := p.username, title := title.trim,
                             description := description.trim, price := price,
                             images := images, storage_paths := storagePaths,
                             is_active := true } = .error e1)
    (h4 : sb2.blogInsert { author_username := p.username, title := title.trim,
                           content := content.trim,
                           is_published := isPublished } = .error e2) :
    (SupabaseLib.createMarketplaceItem (some sb1) title description price images storagePaths).1 =
      .error ⟨"User not authenticated"⟩
  ∧ ((SupabaseLib.createMarketplaceItem (some sb1) title description price images storagePaths).2).all
      (fun e => !e.isInsert) = true
  ∧ (SupabaseLib.createBlogPost (some sb1) title content isPublished).1 =
      .error ⟨"User not authenticated"⟩
  ∧ ((SupabaseLib.createBlogPost (some sb1) title content isPublished).2).all
      (fun e => !e.isInsert) = true
  ∧ (SupabaseLib.createMarketplaceItem (some sb2) title description price images storagePaths).1 =
      .error ⟨e1.message⟩
  ∧ (SupabaseLib.createBlogPost (some sb2) title content isPublished).1 =
      .error ⟨e2.message⟩ := by
  have hne := SupabaseLib.getCurrentUserProfile_no_insert (some sb1)
  cases hg1 : SupabaseLib.getCurrentUserProfile (some sb1) with
  | mk prof1 eff1 =>
    cases hg2 : SupabaseLib.getCurrentUserProfile (some sb2) with
    | mk prof2 eff2 =>
      rw [hg1] at h1 hne
      rw [hg2] at h2
      simp only at h1 h2 hne
      subst h1 h2
      refine ⟨?_, ?_, ?_, ?_, ?_, ?_⟩ <;>
        simp [SupabaseLib.createMarketplaceItem, SupabaseLib.createBlogPost,
          hg1, hg2, h3, h4, hne]

/-- C3, witness: `emptyBackend` has no session user so its current profile
is `null`; `backendAuthed` has profile `profU1` and rejects inserts with
`'insert rejected'`, which both creation functions re-throw. -/
theorem create_requires_auth_and_rethrows_witness :
    (SupabaseLib.createMarketplaceItem (some Claims.emptyBackend) "t" "d" 3 [] []).1 =
      .error ⟨"User not authenticated"⟩
  ∧ ((SupabaseLib.createMarketplaceItem (some Claims.emptyBackend) "t" "d" 3 [] []).2).all
      (fun e => !e.isInsert) = true
  ∧ (SupabaseLib.createBlogPost (some Claims.emptyBackend) "t" "c" false).1 =
      .error ⟨"User not authenticated"⟩
  ∧ ((SupabaseLib.createBlogPost (some Claims.emptyBackend) "t" "c" false).2).all
      (fun e => !e.isInsert) = true
  ∧ (SupabaseLib.createMarketplaceItem (some Claims.backendAuthed) "t" "d" 3 [] []).1 =
      .error ⟨(⟨"insert rejected"⟩ : SupabaseLib.DbError).message⟩
  ∧ (SupabaseLib.createBlogPost (some Claims.backendAuthed) "t" "c" false).1 =
      .error ⟨(⟨"insert rejected"⟩ : SupabaseLib.DbError).message⟩ :=
  create_requires_auth_and_rethrows Claims.emptyBackend Claims.backendAuthed Claims.profU1
    "t" "d" "c" 3 [] [] false ⟨"insert rejected"⟩ ⟨"insert rejected"⟩
    (by decide) (by decide) rfl rfl

/-- C6, counterexample: opening the modal for the 7-digit guest username
`1234567` on a backend with a signed-in session does trigger a query against
the `profiles` table — `checkAuthStatus` fetches the session profile on
every open, independently of the viewed username. -/
theorem guest_open_counterexample :
    UserProfileModal.isGuestUser "1234567" = true
  ∧ ((UserProfileModal.openProfileModal (some Claims.backendAuthed) "1234567" "1234567"
      "2024-06-01T00:00:00Z").any SupabaseLib.Effect.touchesProfiles) = true :=
  ⟨by decide, by decide⟩

/-- C6, amended: `fetchProfileData` itself, for every username of exactly
seven digits, issues no query touching the `profiles` table (its only
backend call is the pins fetch) and synthesizes the guest record locally;
but opening the modal also runs `checkAuthStatus`, which queries the
`profiles` table whenever a session user exists, so an open of the modal can
still reach the `profiles` table. -/
theorem guest_fetchProfileData_amended (sb : Option SupabaseLib.Backend)
    (username currentUser now : String)
    (h : UserProfileModal.isGuestUser username = true) :
    ((UserProfileModal.fetchProfileData sb username currentUser now).2.2).all
      (fun e => !e.touchesProfiles) = true
  ∧ (UserProfileModal.fetchProfileData sb username currentUser now).2.1 =
      some (UserProfileModal.mockGuestProfile username now) := by
  cases sb with
  | none =>
    constructor <;> simp [UserProfileModal.fetchProfileData, h, SupabaseLib.getUserPins]
  | some b =>
    constructor
    · cases hp : b.pinsError <;>
        simp [UserProfileModal.fetchProfileData, h, SupabaseLib.getUserPins,
          SupabaseLib.selectList, hp, SupabaseLib.Effect.touchesProfiles]
    · cases hp : b.pinsError <;>
        simp [UserProfileModal.fetchProfileData, h, SupabaseLib.getUserPins,
          SupabaseLib.selectList, hp]

/-- C6, witness: the guest open of `fetchProfileData` on `backendAuthed`
issues nothing touching `profiles` and synthesizes the mock record. -/
theorem guest_fetchProfileData_amended_witness :
    ((UserProfileModal.fetchProfileData (some Claims.backendAuthed) "1234567" "1234567"
        "2024-06-01T00:00:00Z").2.2).all (fun e => !e.touchesProfiles) = true
  ∧ (UserProfileModal.fetchProfileData (some Claims.backendAuthed) "1234567" "1234567"
        "2024-06-01T00:00:00Z").2.1 =
      some (UserProfileModal.mockGuestProfile "1234567" "2024-06-01T00:00:00Z") :=
  guest_fetchProfileData_amended (some Claims.backendAuthed) "1234567" "1234567"
    "2024-06-01T00:00:00Z" (by decide)

/-- C7: the profile-picture handler rejects client-side, with an alert and
before any backend call, every file whose MIME type does not start with
`image/` and every file larger than 5 MB — an oversized file produces an
empty trace whatever the component state, so it never reaches
`uploadImage` — while a valid image of at most 5 MB proceeds to upload,
public-URL fetch, profile update and re-fetch, in that order. -/
theorem profile_picture_validation (sb : SupabaseLib.Backend)
    (fBadType fBig fOk : SupabaseLib.JsFile) (auth2 : Bool)
    (prof2 : Option SupabaseLib.ProfileRow) (username username2 currentUser : String)
    (prof : SupabaseLib.ProfileRow) (now : String) (nowMs : Nat) (rand : String)
    (hGuest : UserProfileModal.isGuestUser username = false)
    (hBadType : SupabaseLib.jsStartsWith fBadType.type "image/" = false)
    (hBigType : SupabaseLib.jsStartsWith fBig.type "image/" = true)
    (hBig : 5 * 1024 * 1024 < fBig.size)
    (hOkType : SupabaseLib.jsStartsWith fOk.type "image/" = true)
    (hOkSize : fOk.size ≤ 5 * 1024 * 1024)
    (hUp : sb.uploadError = none)
    (hUpd : sb.updateError = none) :
    UserProfileModal.handleProfilePictureChange (some sb) (some fBadType) true (some prof)
        username currentUser now nowMs rand = (.rejected "Please select an image file", [])
  ∧ UserProfileModal.handleProfilePictureChange (some sb) (some fBig) true (some prof)
        username currentUser now nowMs rand = (.rejected "Image size must be less than 5MB", [])
  ∧ (UserProfileModal.handleProfilePictureChange (some sb) (some fBig) auth2 prof2
        username2 currentUser now nowMs rand).2 = []
  ∧ UserProfileModal.handleProfilePictureChange (some sb) (some fOk) true (some prof)
        username currentUser now nowMs rand =
      (.succeeded,
        .storageUpload "profile-pictures" (SupabaseLib.uploadFileName fOk prof.id nowMs rand)
            "3600" false
        :: .storageGetPublicUrl "profile-pictures"
            (SupabaseLib.uploadFileName fOk prof.id nowMs rand)
        :: .update "profiles"
            (SupabaseLib.objSet
              [("profile_picture_url",
                .str (sb.publicUrl "profile-pictures"
                  (SupabaseLib.uploadFileName fOk prof.id nowMs rand)))]
              "updated_at" (.str now))
            "id" (.str prof.id)
        :: (UserProfileModal.fetchProfileData (some sb) username currentUser now).2.2) := by
  refine ⟨?_, ?_, ?_, ?_⟩
  · simp [UserProfileModal.handleProfilePictureChange, hGuest, hBadType]
  · simp [UserProfileModal.handleProfilePictureChange, hGuest, hBigType, hBig]
  · cases auth2 with
    | false => rfl
    | true =>
      cases prof2 with
      | none => rfl
      | some q =>
        by_cases hg : UserProfileModal.isGuestUser username2 = true
        · simp [UserProfileModal.handleProfilePictureChange, hg]
        · have hg' : UserProfileModal.isGuestUser username2 = false := by
            simpa using hg
          by_cases ht : SupabaseLib.jsStartsWith fBig.type "image/" = true
          · simp [UserProfileModal.handleProfilePictureChange, hg', ht, hBig]
          · have ht' : SupabaseLib.jsStartsWith fBig.type "image/" = false := by simpa using ht
            simp [UserProfileModal.handleProfilePictureChange, hg', ht']
  · have hns : ¬ (fOk.size > 5 * 1024 * 1024) := not_lt.mpr hOkSize
    simp [UserProfileModal.handleProfilePictureChange, hGuest, hOkType, hns,
      SupabaseLib.uploadImage, hUp, SupabaseLib.getImageUrl,
      SupabaseLib.updateUserProfile, hUpd]

/-- C7, witness: on `emptyBackend` (whose upload and update succeed), a
`text/plain` file and a 6 MB image are both rejected with an empty trace,
the 6 MB image produces no backend call even with the guards unmet, and a
small image runs upload → public URL → update → re-fetch. -/
theorem profile_picture_validation_witness :
    UserProfileModal.handleProfilePictureChange (some Claims.emptyBackend)
        (some ⟨"a.txt", "text/plain", 10⟩) true (some Claims.profU1)
        "alice" "alice" "2024-06-01T00:00:00Z" 1 "zzz" =
      (.rejected "Please select an image file", [])
  ∧ UserProfileModal.handleProfilePictureChange (some Claims.emptyBackend)
        (some ⟨"b.png", "image/png", 6291456⟩) true (some Claims.profU1)
        "alice" "alice" "2024-06-01T00:00:00Z" 1 "zzz" =
      (.rejected "Image size must be less than 5MB", [])
  ∧ (UserProfileModal.handleProfilePictureChange (some Claims.emptyBackend)
        (some ⟨"b.png", "image/png", 6291456⟩) false none
        "1234567" "alice" "2024-06-01T00:00:00Z" 1 "zzz").2 = []
  ∧ UserProfileModal.handleProfilePictureChange (some Claims.emptyBackend)
        (some ⟨"c.png", "image/png", 1024⟩) true (some Claims.profU1)
        "alice" "alice" "2024-06-01T00:00:00Z" 1 "zzz" =
      (.succeeded,
        .storageUpload "profile-pictures"
            (SupabaseLib.uploadFileName ⟨"c.png", "image/png", 1024⟩ Claims.profU1.id 1 "zzz")
            "3600" false
        :: .storageGetPublicUrl "profile-pictures"
            (SupabaseLib.uploadFileName ⟨"c.png", "image/png", 1024⟩ Claims.profU1.id 1 "zzz")
        :: .update "profiles"
            (SupabaseLib.objSet
              [("profile_picture_url",
                .str (Claims.emptyBackend.publicUrl "profile-pictures"
                  (SupabaseLib.uploadFileName ⟨"c.png", "image/png", 1024⟩ Claims.profU1.id 1 "zzz")))]
              "updated_at" (.str "2024-06-01T00:00:00Z"))
            "id" (.str Claims.profU1.id)
        :: (UserProfileModal.fetchProfileData (some Claims.emptyBackend) "alice" "alice"
            "2024-06-01T00:00:00Z").2.2) :=
  profile_picture_validation Claims.emptyBackend ⟨"a.txt", "text/plain", 10⟩
    ⟨"b.png", "image/png", 6291456⟩ ⟨"c.png", "image/png", 1024⟩ false none
    "alice" "1234567" "alice" Claims.profU1 "2024-06-01T00:00:00Z" 1 "zzz"
    (by decide) (by decide) (by decide) (by decide) (by decide) (by decide) rfl rfl

/-- The extension `split('.').pop()` computes is always the characters after
the last dot of the name — the whole name when it has no dot. -/
theorem uploadFileExt_eq (name : String) :
    SupabaseLib.uploadFileExt name = String.mk (afterLastDotChars name.data) := by
  have h := (SupabaseLib.splitOnChar_getLast '.' name.data).1
  rw [SupabaseLib.uploadFileExt, SupabaseLib.jsSplit, List.getLast?_map, h]
  rfl

/-- C8, counterexample: for the dotless file name `photo`,
`split('.').pop()` yields the whole name, so the key the code builds is
`u1/5-r4nd.photo`, while "the substring after its last dot" does not exist —
the key the claim describes is not the key the code uploads. -/
theorem upload_key_counterexample :
    SupabaseLib.uploadFileName ⟨"photo", "image/png", 10⟩ "u1" 5 "r4nd" = "u1/5-r4nd.photo"
  ∧ claimUploadKey ⟨"photo", "image/png", 10⟩ "u1" 5 "r4nd" = none
  ∧ (SupabaseLib.uploadImage (some Claims.emptyBackend) ⟨"photo", "image/png", 10⟩
      "u1" "pin-images" 5 "r4nd").1 = some "u1/5-r4nd.photo" :=
  ⟨by decide, by decide, by decide⟩

/-- C8, amended: `uploadImage` builds the object key as the owner id, `/`,
the current time in milliseconds, `-`, the random base-36 suffix, `.`, and
the extension taken from the original file name — the substring after its
last dot when the name contains a dot, the entire name when it contains
none; the upload is issued with upsert disabled, and on success the stored
path is returned. -/
theorem upload_key_amended (sb : SupabaseLib.Backend) (fAny fDot fND : SupabaseLib.JsFile)
    (userId bucket : String) (nowMs : Nat) (rand : String)
    (hUp : sb.uploadError = none)
    (hDot : fDot.name.data.any (fun c => c == '.') = true)
    (hND : fND.name.data.all (fun c => c != '.') = true) :
    SupabaseLib.uploadImage (some sb) fAny userId bucket nowMs rand =
      (some (SupabaseLib.uploadFileName fAny userId nowMs rand),
       [.storageUpload bucket (SupabaseLib.uploadFileName fAny userId nowMs rand)
          "3600" false])
  ∧ claimUploadKey fDot userId nowMs rand =
      some (SupabaseLib.uploadFileName fDot userId nowMs rand)
  ∧ SupabaseLib.uploadFileExt fND.name = fND.name := by
  refine ⟨?_, ?_, ?_⟩
  · simp [SupabaseLib.uploadImage, hUp]
  · rw [claimUploadKey, extAfterLastDot, if_pos hDot]
    rw [SupabaseLib.uploadFileName, uploadFileExt_eq]
    rfl
  · rw [uploadFileExt_eq, afterLastDotChars]
    have hallr : fND.name.data.reverse.all (fun c => c != '.') = true := by
      simpa using hND
    have htw : fND.name.data.reverse.takeWhile (fun c => c != '.') =
        fND.name.data.reverse :=
      List.takeWhile_eq_self_iff.mpr (fun x hx => List.all_eq_true.mp hallr x hx)
    rw [htw, List.reverse_reverse]

/-- C8, witness: `a.b.png` keeps extension `png` (substring after the last
dot), a dotless name is its own extension, and the upload of any file on a
backend that accepts it stores under the built key with upsert disabled. -/
theorem upload_key_amended_witness :
    SupabaseLib.uploadImage (some Claims.emptyBackend) ⟨"a", "image/png", 1⟩
        "u1" "pin-images" 7 "rr" =
      (some (SupabaseLib.uploadFileName ⟨"a", "image/png", 1⟩ "u1" 7 "rr"),
       [.storageUpload "pin-images"
          (SupabaseLib.uploadFileName ⟨"a", "image/png", 1⟩ "u1" 7 "rr") "3600" false])
  ∧ claimUploadKey ⟨"a.b.png", "image/png", 1⟩ "u1" 7 "rr" =
      some (SupabaseLib.uploadFileName ⟨"a.b.png", "image/png", 1⟩ "u1" 7 "rr")
  ∧ SupabaseLib.uploadFileExt (SupabaseLib.JsFile.name ⟨"photo2", "image/png", 1⟩) =
      SupabaseLib.JsFile.name ⟨"photo2", "image/png", 1⟩ :=
  upload_key_amended Claims.emptyBackend ⟨"a", "image/png", 1⟩ ⟨"a.b.png", "image/png", 1⟩
    ⟨"photo2", "image/png", 1⟩ "u1" "pin-images" 7 "rr" rfl (by decide) (by decide)

end Claims
